import Mathlib

/-!
# Verification of the Tide project-world and preview-renderer core

Shallow embedding of the parts of the Tide source relevant to the frozen
claims:

* `src/file_manager/file.rs` — path/virtual-id conversion (`get_relative_path`,
  `save_file_disk`'s path reconstruction) and the recent-project cache
  (`cache_project`).
* `src/world.rs` — the `TideWorld` virtual file system (`add_source`,
  `add_asset`, `remove_file`, `reload_source_from_content`, the `World`
  accessors `source`/`file`) and the font-catalog construction (`load_fonts`).
* `src/screen/component/preview.rs` — the incremental preview renderer
  (`pages_positions`, `compute_pages_to_render`, `fetch`, `update`).

Modelling conventions: file-system paths are component lists (`List String`);
a Typst `VirtualPath` stores a leading `/`, which corresponds here to the
implicit root of the component list.  `HashMap` is embedded extensionally as
a function to `Option` (only lookups are observable).  `f32` quantities are
embedded as exact rationals `ℚ`.  External libraries (typst's renderer and
font parser, the OS file system) appear as parameters or as small inductive
summaries of the outcomes the code branches on.
-/

namespace Tide

/-- A file-system path as its list of components.  An absolute path is a
component list below the (implicit) file-system root; a Typst virtual path is
a component list below the project root (the leading `/` the Rust code pushes
in `get_relative_path` denotes that root). -/
abbrev VPath := List String

/-- Helper for `get_relative_path`: `Path::strip_prefix` on component lists.
`stripComponents base p` removes `base` from the front of `p`, failing if
`base` is not a component-wise front of `p`. -/
def stripComponents : VPath → VPath → Option VPath
  | [], p => some p
  | _ :: _, [] => none
  | a :: base, b :: p => if a = b then stripComponents base p else none

/-- `get_relative_path` (src/file_manager/file.rs:53-62): converts an absolute
path into a project-root-relative virtual path, `none` when `file_path` does
not lie under `current_dir`.  The `/` the Rust code prefixes is the implicit
root of the returned component list. -/
def get_relative_path (current_dir file_path : VPath) : Option VPath :=
  stripComponents current_dir file_path

/-- Path reconstruction performed by `save_file_disk` / `delete_file_from_disk`
(src/file_manager/file.rs:240, 252): `dir_path.join(id.vpath().as_rootless_path())`.
`as_rootless_path` drops the leading `/`, i.e. yields the component list. -/
def to_absolute (dir_path : VPath) (rootless : VPath) : VPath :=
  dir_path ++ rootless

/-! ## The Tide world (src/world.rs) -/

/-- A `FileId` is interned from `VirtualPath::new(relative_path)` with no
package (src/world.rs:120); it is determined by the rootless component list. -/
abbrev FileId := VPath

/-- Binary file contents (`typst::foundations::Bytes`). -/
abbrev Bytes := List Nat

/-- An opaque token standing for one parsed `typst::text::Font` face. -/
abbrev FontFace := Nat

/-- The error the `World` accessors produce: `FileError::NotFound` carrying
`id.vpath().as_rootless_path()` (src/world.rs:211, 229). -/
inductive FileError where
  | notFound (path : VPath)
deriving DecidableEq, Repr

/-- `typst::diag::FileResult<T> = Result<T, FileError>`. -/
inductive FileResult (α : Type) where
  | ok (value : α)
  | error (e : FileError)
deriving DecidableEq, Repr

/-- `TideWorld` (src/world.rs:37-48) restricted to the observable state the
claims mention: the main file id, the loaded fonts, and the two `HashMap`s of
`Files` (src/world.rs:322-327), embedded extensionally. -/
@[ext]
structure TideWorld where
  main : FileId
  fonts : List FontFace
  sources : FileId → Option String
  assets : FileId → Option Bytes

/-- `TideWorld::add_source` (src/world.rs:131-133): insert into the sources
map, overwriting any previous source under the same id. -/
def TideWorld.add_source (w : TideWorld) (file_id : FileId) (text : String) :
    TideWorld :=
  { w with sources := fun k => if k = file_id then some text else w.sources k }

/-- `TideWorld::add_asset` (src/world.rs:136-138): insert into the assets map,
overwriting any previous asset under the same id. -/
def TideWorld.add_asset (w : TideWorld) (file_id : FileId) (asset : Bytes) :
    TideWorld :=
  { w with assets := fun k => if k = file_id then some asset else w.assets k }

/-- `TideWorld::reload_source_from_content` (src/world.rs:124-128): replace
the text of the source under `id`; does nothing when no source exists.
`text` is the flushed editor content. -/
def TideWorld.reload_source_from_content (w : TideWorld) (id : FileId)
    (text : String) : TideWorld :=
  match w.sources id with
  | some _ =>
      { w with sources := fun k => if k = id then some text else w.sources k }
  | none => w

/-- `TideWorld::remove_file` (src/world.rs:158-161): remove the id from both
the asset and the source map. -/
def TideWorld.remove_file (w : TideWorld) (id : FileId) : TideWorld :=
  { w with
    assets := fun k => if k = id then none else w.assets k
    sources := fun k => if k = id then none else w.sources k }

/-- `World::source` for `TideWorld` (src/world.rs:207-213). -/
def TideWorld.source (w : TideWorld) (id : FileId) : FileResult String :=
  match w.sources id with
  | some file => .ok file
  | none => .error (.notFound id)

/-- `World::file` for `TideWorld` (src/world.rs:220-231). -/
def TideWorld.file (w : TideWorld) (id : FileId) : FileResult Bytes :=
  match w.assets id with
  | some file => .ok file
  | none => .error (.notFound id)

/-! ## Font-catalog construction (src/world.rs:53-69)

`load_fonts` iterates `fs::read_dir`.  Each iteration step yields one of the
outcomes below; the Rust code branches on exactly these.  A panic (Rust
`expect`) is modelled as `none`. -/

/-- Summary of one `fs::read_dir` iteration step as `load_fonts` observes it. -/
inductive DirEntryCase where
  /-- The iterator produced `Err(_)`: `path.expect("Can't read this path")`
  panics. -/
  | unreadable
  /-- A path whose `fs::read` failed: silently skipped. -/
  | readFailure (path : VPath)
  /-- A path that was read; `Font::iter` parsed `faces` faces (possibly none,
  when the bytes are not a font). -/
  | fontFile (path : VPath) (faces : List FontFace)
deriving DecidableEq, Repr

/-- `load_fonts` (src/world.rs:53-69) over the summarized directory listing;
`none` models the `expect` panic on an unreadable directory entry. -/
def load_fonts : List DirEntryCase → Option (List FontFace)
  | [] => some []
  | .unreadable :: _ => none
  | .readFailure _ :: rest => load_fonts rest
  | .fontFile _ faces :: rest => (load_fonts rest).map (faces ++ ·)

/-! ## Recent-project cache (src/file_manager/file.rs:177-226) -/

/-- Maximum number of recent projects to cache (src/file_manager/file.rs:11). -/
def MAX_CACHED_PROJECTS : Nat := 5

/-- `ProjectCache` (src/file_manager/file.rs:258-263). -/
structure ProjectCache where
  root_path : VPath
  main : Option VPath
deriving DecidableEq, Repr

/-- The list transformation of `cache_project` (src/file_manager/file.rs:177-183):
pop the last entry when more than `MAX_CACHED_PROJECTS - 1` are cached, drop
any entry with the new project's root, then put the new project first.  (The
surrounding disk I/O persists the resulting list verbatim.) -/
def cache_project (project : ProjectCache) (projects : List ProjectCache) :
    List ProjectCache :=
  let popped :=
    if projects.length > MAX_CACHED_PROJECTS - 1 then projects.dropLast
    else projects
  let retained := popped.filter (fun p => p.root_path ≠ project.root_path)
  project :: retained

/-! ## Incremental preview renderer (src/screen/component/preview.rs)

`f32` geometry is embedded in exact rational arithmetic.  The external
rasterizer-and-encoder (`typst_render::render(...).encode_png()`) appears as
a parameter `enc : Page → ℚ → Option Bytes`; `PagePreview::fetch` stores its
outcome, so `bytes = some _` means the page was rasterized. -/

/-- `SPACING_BETWEEN_PAGES` (src/screen/component/preview.rs:11), in points. -/
def SPACING_BETWEEN_PAGES : ℚ := 15

/-- `SCROLL_RELOAD_DELAY` (src/screen/component/preview.rs:12). -/
def SCROLL_RELOAD_DELAY : ℚ := 50

/-- `DEFAULT_VIEWPORT_H` (src/screen/component/preview.rs:13). -/
def DEFAULT_VIEWPORT_H : ℚ := 1500

/-- One page of a compiled document: the frame geometry in points that
`page.frame.width()/height().to_pt()` exposes. -/
structure Page where
  width : ℚ
  height : ℚ
deriving DecidableEq, Repr

/-- The compiler's `PagedDocument`, reduced to its ordered page list. -/
abbrev PagedDocument := List Page

/-- `PagePreview` (src/screen/component/preview.rs:15-20). -/
structure PagePreview where
  bytes : Option Bytes
  height : ℚ
  width : ℚ
deriving DecidableEq, Repr

/-- `PagePreview::empty` (src/screen/component/preview.rs:23-29): a sized
placeholder, no pixels. -/
def PagePreview.empty (page : Page) : PagePreview :=
  { bytes := none, height := page.height, width := page.width }

/-- `PagePreview::fetch` (src/screen/component/preview.rs:31-39): rasterize
and PNG-encode the page at the given zoom; `bytes` is the encoder's outcome. -/
def PagePreview.fetch (enc : Page → ℚ → Option Bytes) (page : Page) (zoom : ℚ) :
    PagePreview :=
  { bytes := enc page zoom, height := page.height, width := page.width }

/-- The `Preview` state (src/screen/component/preview.rs:68-74); the
`AbsoluteOffset` keeps only its `y` component, the only one read. -/
structure Preview where
  zoom : ℚ
  viewport_h : ℚ
  offset_y : ℚ
  pages_to_render : Nat × Nat
  pages : Option (List PagePreview)

/-- `Preview::new` (src/screen/component/preview.rs:89-97). -/
def Preview.new : Preview :=
  { zoom := 1
    offset_y := 0
    viewport_h := DEFAULT_VIEWPORT_H
    pages_to_render := (0, 0)
    pages := none }

/-- The `scan` loop of `Preview::pages_positions`
(src/screen/component/preview.rs:102-114), carrying the running offset. -/
def pagesPositionsFrom (zoom : ℚ) : ℚ → List Page → List (ℚ × ℚ)
  | _, [] => []
  | offset, page :: rest =>
      let b := offset + SPACING_BETWEEN_PAGES
      let e := b + page.height * zoom
      (b, e) :: pagesPositionsFrom zoom e rest

/-- `Preview::pages_positions` (src/screen/component/preview.rs:102-114):
for each page, the absolute vertical positions of its beginning and end. -/
def Preview.pages_positions (self : Preview) (document : PagedDocument) :
    List (ℚ × ℚ) :=
  pagesPositionsFrom self.zoom 0 document

/-- `Preview::compute_pages_to_render` (src/screen/component/preview.rs:116-127):
`start` counts the pages ending above the viewport top, `end` counts the pages
beginning above the viewport bottom. -/
def Preview.compute_pages_to_render (self : Preview) (document : PagedDocument) :
    Nat × Nat :=
  let pages_positions := self.pages_positions document
  ( (pages_positions.takeWhile (fun pe => decide (pe.2 < self.offset_y))).length
  , (pages_positions.takeWhile
      (fun pe => decide (pe.1 < self.offset_y + self.viewport_h))).length )

/-- The background render pass `fetch` (src/screen/component/preview.rs:219-236):
pages with index inside the inclusive range `[pages_to_render.1, pages_to_render.2]`
are rasterized at the given zoom, every other page becomes a sized placeholder. -/
def fetch (enc : Page → ℚ → Option Bytes) (pages_to_render : Nat × Nat)
    (zoom : ℚ) (document : PagedDocument) : List PagePreview :=
  document.enum.map fun ip =>
    if pages_to_render.1 ≤ ip.1 ∧ ip.1 ≤ pages_to_render.2 then
      PagePreview.fetch enc ip.2 zoom
    else
      PagePreview.empty ip.2

/-- `Message` (src/screen/component/preview.rs:76-85).  `Scrolled` carries the
scrollable viewport's absolute y-offset and bounds height, the two values
`update` reads from it. -/
inductive Message where
  | incrementZoom
  | decrementZoom
  | scrolled (offset_y viewport_h : ℚ)
  | reloadPages
  | pagesReloaded (pages : List PagePreview)

/-- The `iced::Task` value `Preview::update` returns: nothing, an immediately
redelivered message, or the dispatch of the background `fetch`. -/
inductive PreviewTask where
  | noTask
  | done (m : Message)
  | performFetch (pages_to_render : Nat × Nat) (zoom : ℚ)

/-- `Preview::update` (src/screen/component/preview.rs:167-215). -/
def Preview.update (self : Preview) (message : Message)
    (document : PagedDocument) : Preview × PreviewTask :=
  match message with
  | .incrementZoom =>
      if self.zoom < 5/2 then
        ({ self with zoom := min (self.zoom + 3/20) 3 }, .done .reloadPages)
      else
        (self, .noTask)
  | .decrementZoom =>
      if self.zoom > 1/10 then
        ({ self with zoom := max (self.zoom - 3/20) (1/10) }, .done .reloadPages)
      else
        (self, .noTask)
  | .scrolled new_offset_y new_viewport_h =>
      if |new_offset_y - self.offset_y| > SCROLL_RELOAD_DELAY then
        ({ self with offset_y := new_offset_y, viewport_h := new_viewport_h },
         .done .reloadPages)
      else
        (self, .noTask)
  | .reloadPages =>
      let new_index := self.compute_pages_to_render document
      if new_index ≠ self.pages_to_render then
        ({ self with pages_to_render := new_index },
         .performFetch new_index self.zoom)
      else
        (self, .noTask)
  | .pagesReloaded pages =>
      ({ self with pages := some pages }, .noTask)

/-- Fold a message sequence through `Preview.update`, keeping the state. -/
def applyMessages (document : PagedDocument) (messages : List Message)
    (self : Preview) : Preview :=
  messages.foldl (fun s m => (s.update m document).1) self

/-! ## Concrete example data used by witnesses and counterexamples -/

/-- An empty world with main file `main.typ`: `TideWorld::new` with no assets,
fonts elided. -/
def exampleWorld : TideWorld :=
  { main := ["main.typ"], fonts := [], sources := fun _ => none,
    assets := fun _ => none }

/-- A rasterizer-and-encoder summary that always succeeds with an empty PNG. -/
def okEncoder : Page → ℚ → Option Bytes := fun _ _ => some []

/-- Two A4-like 800pt-tall, 600pt-wide pages. -/
def twoPageDocument : PagedDocument := [⟨600, 800⟩, ⟨600, 800⟩]

/-! ## Helper lemmas -/

/-- If `p` implies `q` on the elements of `l`, `takeWhile p` keeps at most as
many elements as `takeWhile q`. -/
theorem length_takeWhile_mono_pred {α : Type} (p q : α → Bool) (l : List α)
    (h : ∀ x ∈ l, p x = true → q x = true) :
    (l.takeWhile p).length ≤ (l.takeWhile q).length := by
  induction l with
  | nil => simp
  | cons a l ih =>
      rw [List.takeWhile_cons, List.takeWhile_cons]
      cases hp : p a with
      | false => simp
      | true =>
          rw [h a (List.mem_cons_self a l) hp]
          simpa using ih fun x hx hpx => h x (List.mem_cons_of_mem a hx) hpx

/-- `takeWhile` keeps at most the whole list. -/
theorem length_takeWhile_le_length {α : Type} (p : α → Bool) (l : List α) :
    (l.takeWhile p).length ≤ l.length :=
  (List.takeWhile_sublist p).length_le

/-- `pages_positions` yields one interval per page. -/
theorem pagesPositionsFrom_length (zoom offset : ℚ) (pages : List Page) :
    (pagesPositionsFrom zoom offset pages).length = pages.length := by
  induction pages generalizing offset with
  | nil => rfl
  | cons page rest ih => simp [pagesPositionsFrom, ih]

/-- With nonnegative zoom and page heights, every interval of
`pages_positions` has its beginning at or before its end. -/
theorem pagesPositionsFrom_le (zoom offset : ℚ) (pages : List Page)
    (hz : 0 ≤ zoom) (hh : ∀ page ∈ pages, 0 ≤ page.height) :
    ∀ pe ∈ pagesPositionsFrom zoom offset pages, pe.1 ≤ pe.2 := by
  induction pages generalizing offset with
  | nil => simp [pagesPositionsFrom]
  | cons page rest ih =>
      intro pe hpe
      simp only [pagesPositionsFrom, List.mem_cons] at hpe
      rcases hpe with rfl | hpe
      · have : 0 ≤ page.height * zoom :=
          mul_nonneg (hh page (List.mem_cons_self page rest)) hz
        simpa using this
      · exact ih _ (fun q hq => hh q (List.mem_cons_of_mem page hq)) pe hpe

/-- One step of `Preview::update` keeps the zoom factor inside `[1/10, 3]`. -/
theorem update_zoom_invariant (self : Preview) (message : Message)
    (document : PagedDocument)
    (h : 1/10 ≤ self.zoom ∧ self.zoom ≤ 3) :
    1/10 ≤ (self.update message document).1.zoom ∧
      (self.update message document).1.zoom ≤ 3 := by
  obtain ⟨hlo, hhi⟩ := h
  cases message with
  | incrementZoom =>
      simp only [Preview.update]
      split
      · exact ⟨le_min (by linarith) (by norm_num), min_le_right _ _⟩
      · exact ⟨hlo, hhi⟩
  | decrementZoom =>
      simp only [Preview.update]
      split
      · exact ⟨le_max_right _ _, max_le (by linarith) (by norm_num)⟩
      · exact ⟨hlo, hhi⟩
  | scrolled new_offset_y new_viewport_h =>
      simp only [Preview.update]
      split <;> exact ⟨hlo, hhi⟩
  | reloadPages =>
      simp only [Preview.update]
      split <;> exact ⟨hlo, hhi⟩
  | pagesReloaded pages => exact ⟨hlo, hhi⟩

/-- The zoom invariant is preserved by any fold of `Preview.update`. -/
theorem applyMessages_zoom_invariant (document : PagedDocument)
    (messages : List Message) (self : Preview)
    (h : 1/10 ≤ self.zoom ∧ self.zoom ≤ 3) :
    1/10 ≤ (applyMessages document messages self).zoom ∧
      (applyMessages document messages self).zoom ≤ 3 := by
  induction messages generalizing self with
  | nil => exact h
  | cons m messages ih =>
      exact ih _ (update_zoom_invariant self m document h)

/-- `stripComponents` recovers the suffix after its base. -/
theorem stripComponents_append (base t : VPath) :
    stripComponents base (base ++ t) = some t := by
  induction base with
  | nil => rfl
  | cons a base ih => simp [stripComponents, ih]

/-- `stripComponents` only succeeds on genuine extensions of its base. -/
theorem stripComponents_sound (base : VPath) :
    ∀ p t, stripComponents base p = some t → base ++ t = p := by
  induction base with
  | nil =>
      intro p t h
      simp only [stripComponents, Option.some.injEq] at h
      simp [h]
  | cons a base ih =>
      intro p t h
      cases p with
      | nil => simp [stripComponents] at h
      | cons b p =>
          simp only [stripComponents] at h
          by_cases hab : a = b
          · rw [if_pos hab] at h
            simpa [hab] using ih p t h
          · rw [if_neg hab] at h
            exact absurd h (by simp)

/-! ## Claim theorems -/

/-- Claim C2 counterexample: the claim's mutual-exclusion invariant fails.
Inserting the same id first as a source and then as an asset leaves both
entries in place, so `source(id)` and `file(id)` both succeed. -/
theorem virtual_id_exclusivity_counterexample :
    ((exampleWorld.add_source ["a"] "hi").add_asset ["a"] [7]).source ["a"]
        = .ok "hi" ∧
    ((exampleWorld.add_source ["a"] "hi").add_asset ["a"] [7]).file ["a"]
        = .ok [7] := by
  constructor <;> decide

/-- Claim C2 (amended): `add_source` overwrites any previous source under the
id and `add_asset` any previous asset, but sources and assets live in two
independent maps, so an id inserted as both keeps both entries and both
accessors succeed. -/
theorem insert_overwrites_within_kind (w : TideWorld) (id : FileId)
    (text : String) (asset : Bytes) :
    (w.add_source id text).source id = .ok text ∧
    (w.add_asset id asset).file id = .ok asset ∧
    (w.add_source id text).file id = w.file id ∧
    (w.add_asset id asset).source id = w.source id ∧
    ((w.add_source id text).add_asset id asset).source id = .ok text ∧
    ((w.add_source id text).add_asset id asset).file id = .ok asset := by
  refine ⟨?_, ?_, ?_, ?_, ?_, ?_⟩ <;>
    simp [TideWorld.add_source, TideWorld.add_asset, TideWorld.source,
      TideWorld.file]

/-- Claim C3: the claim that font-catalog construction never aborts is right,
but the code is wrong: `load_fonts` calls `expect` on each directory entry, so
an unreadable entry panics (modelled as `none`) instead of being skipped,
while a file whose read fails is skipped and a directory without bad entries
always completes. -/
theorem load_fonts_panics_on_unreadable_entry :
    load_fonts [DirEntryCase.unreadable] = none ∧
    load_fonts [DirEntryCase.readFailure ["bad.ttf"]] = some [] ∧
    load_fonts [DirEntryCase.fontFile ["font.ttf"] [0],
      DirEntryCase.unreadable] = none ∧
    load_fonts [DirEntryCase.readFailure ["bad.ttf"],
      DirEntryCase.fontFile ["font.ttf"] [0, 1]] = some [0, 1] := by
  refine ⟨rfl, rfl, rfl, rfl⟩

/-- Claim C4: after `remove_file id`, both `source id` and `file id` answer
`NotFound`, and removing the same id again leaves the world unchanged. -/
theorem remove_file_consistency (w : TideWorld) (id : FileId) :
    (w.remove_file id).source id = .error (.notFound id) ∧
    (w.remove_file id).file id = .error (.notFound id) ∧
    (w.remove_file id).remove_file id = w.remove_file id := by
  refine ⟨?_, ?_, ?_⟩
  · simp [TideWorld.remove_file, TideWorld.source]
  · simp [TideWorld.remove_file, TideWorld.file]
  · ext k
    · rfl
    · rfl
    · by_cases hk : k = id <;> simp [TideWorld.remove_file, hk]
    · by_cases hk : k = id <;> simp [TideWorld.remove_file, hk]

/-- Claim C5: converting a descendant of the root to a virtual identifier
succeeds and resolving it back against the root restores the original path;
a path that is not a descendant converts to `None`. -/
theorem relative_path_roundtrip (r p : VPath) :
    ((∃ t, r ++ t = p) →
      (get_relative_path r p).map (to_absolute r) = some p) ∧
    ((¬ ∃ t, r ++ t = p) → get_relative_path r p = none) := by
  constructor
  · rintro ⟨t, rfl⟩
    rw [get_relative_path, stripComponents_append]
    rfl
  · intro hne
    cases h : stripComponents r p with
    | none => exact h
    | some t => exact absurd ⟨t, stripComponents_sound r p t h⟩ hne

/-- Claim C5 witness at a concrete root and two concrete paths. -/
theorem relative_path_roundtrip_witness :
    (get_relative_path ["home", "alice", "proj"]
        ["home", "alice", "proj", "main.typ"]).map
      (to_absolute ["home", "alice", "proj"])
        = some ["home", "alice", "proj", "main.typ"] ∧
    get_relative_path ["home", "alice", "proj"]
        ["home", "alice", "other", "f.typ"] = none :=
  ⟨(relative_path_roundtrip ["home", "alice", "proj"]
      ["home", "alice", "proj", "main.typ"]).1 ⟨["main.typ"], rfl⟩,
   (relative_path_roundtrip ["home", "alice", "proj"]
      ["home", "alice", "other", "f.typ"]).2
     (by rintro ⟨t, h⟩; simp at h)⟩

/-- Claim C6: `reload_source_from_content` is a silent no-op when the id has
no source entry; when it has one, only that entry's text changes while every
other source, the assets, the main pointer and the fonts stay unchanged. -/
theorem replace_text_semantics (w : TideWorld) (id : FileId) (text : String) :
    (w.sources id = none → w.reload_source_from_content id text = w) ∧
    (∀ s, w.sources id = some s →
      (w.reload_source_from_content id text).sources id = some text ∧
      (∀ k, k ≠ id →
        (w.reload_source_from_content id text).sources k = w.sources k) ∧
      (w.reload_source_from_content id text).assets = w.assets ∧
      (w.reload_source_from_content id text).main = w.main ∧
      (w.reload_source_from_content id text).fonts = w.fonts) := by
  constructor
  · intro h
    simp [TideWorld.reload_source_from_content, h]
  · intro s h
    refine ⟨?_, ?_, ?_, ?_, ?_⟩ <;>
      simp [TideWorld.reload_source_from_content, h]
    intro k hk
    simp [hk]

/-- Claim C6 witness: the no-op branch on the empty world, and the local
update branch after inserting a source. -/
theorem replace_text_semantics_witness :
    exampleWorld.reload_source_from_content ["a"] "x" = exampleWorld ∧
    ((exampleWorld.add_source ["a"] "s").reload_source_from_content
        ["a"] "x").sources ["a"] = some "x" :=
  ⟨(replace_text_semantics exampleWorld ["a"] "x").1 rfl,
   (((replace_text_semantics (exampleWorld.add_source ["a"] "s")
      ["a"] "x").2 "s" (by decide)).1)⟩

/-- Claim C8: starting from `Preview::new` (zoom 1.0), any sequence of preview
messages keeps the zoom factor inside `[0.1, 3.0]`. -/
theorem zoom_bounded (messages : List Message) (document : PagedDocument) :
    1/10 ≤ (applyMessages document messages Preview.new).zoom ∧
    (applyMessages document messages Preview.new).zoom ≤ 3 :=
  applyMessages_zoom_invariant document messages Preview.new
    (by constructor <;> norm_num [Preview.new])

/-- Claim C7: with document, zoom and viewport height fixed, a larger scroll
offset never decreases the first index of the computed visible range. -/
theorem first_index_monotone (document : PagedDocument)
    (zoom viewport_h : ℚ) (ptr : Nat × Nat) (pvs : Option (List PagePreview))
    (y₁ y₂ : ℚ) (h : y₁ ≤ y₂) :
    (Preview.compute_pages_to_render ⟨zoom, viewport_h, y₁, ptr, pvs⟩
        document).1 ≤
    (Preview.compute_pages_to_render ⟨zoom, viewport_h, y₂, ptr, pvs⟩
        document).1 :=
  length_takeWhile_mono_pred _ _ _ fun _ _ hpe =>
    decide_eq_true (lt_of_lt_of_le (of_decide_eq_true hpe) h)

/-- Claim C7 witness: scroll offsets 0 and 100 on the two-page document. -/
theorem first_index_monotone_witness :
    (Preview.compute_pages_to_render ⟨1, 1500, 0, (0, 0), none⟩
        twoPageDocument).1 ≤
    (Preview.compute_pages_to_render ⟨1, 1500, 100, (0, 0), none⟩
        twoPageDocument).1 :=
  first_index_monotone twoPageDocument 1 1500 (0, 0) none 0 100 (by norm_num)

/-- Claim C10: for nonnegative viewport height, zoom and page heights, the
computed visible range is well-formed: its first index is at most its last
index and both are at most the page count. -/
theorem pages_to_render_wellformed (document : PagedDocument)
    (zoom viewport_h offset_y : ℚ) (ptr : Nat × Nat)
    (pvs : Option (List PagePreview)) (hvh : 0 ≤ viewport_h) (hz : 0 ≤ zoom)
    (hh : ∀ page ∈ document, 0 ≤ page.height) :
    (Preview.compute_pages_to_render ⟨zoom, viewport_h, offset_y, ptr, pvs⟩
        document).1 ≤
      (Preview.compute_pages_to_render ⟨zoom, viewport_h, offset_y, ptr, pvs⟩
        document).2 ∧
    (Preview.compute_pages_to_render ⟨zoom, viewport_h, offset_y, ptr, pvs⟩
        document).1 ≤ document.length ∧
    (Preview.compute_pages_to_render ⟨zoom, viewport_h, offset_y, ptr, pvs⟩
        document).2 ≤ document.length := by
  refine ⟨?_, ?_, ?_⟩
  · exact length_takeWhile_mono_pred _ _ _ fun pe hpe hdec =>
      decide_eq_true
        (lt_of_le_of_lt (pagesPositionsFrom_le _ _ _ hz hh pe hpe)
          (lt_of_lt_of_le (of_decide_eq_true hdec)
            (le_add_of_nonneg_right hvh)))
  · exact le_trans (length_takeWhile_le_length _ _)
      (le_of_eq (pagesPositionsFrom_length _ _ _))
  · exact le_trans (length_takeWhile_le_length _ _)
      (le_of_eq (pagesPositionsFrom_length _ _ _))

/-- Claim C10 witness: the default viewport on the two-page document. -/
theorem pages_to_render_wellformed_witness :
    (Preview.compute_pages_to_render ⟨1, 1500, 0, (0, 0), none⟩
        twoPageDocument).1 ≤
      (Preview.compute_pages_to_render ⟨1, 1500, 0, (0, 0), none⟩
        twoPageDocument).2 ∧
    (Preview.compute_pages_to_render ⟨1, 1500, 0, (0, 0), none⟩
        twoPageDocument).1 ≤ twoPageDocument.length ∧
    (Preview.compute_pages_to_render ⟨1, 1500, 0, (0, 0), none⟩
        twoPageDocument).2 ≤ twoPageDocument.length :=
  pages_to_render_wellformed twoPageDocument 1 1500 0 (0, 0) none
    (by norm_num) (by norm_num) (by norm_num [twoPageDocument])

/-- Claim C1 counterexample: two 800pt pages at zoom 1.0, scroll offset 0 and
viewport height 100 (smaller than page 0's display height).  The computed
range is `(0, 1)`, not the claimed `(0, 0)` — the second component counts
pages beginning above the viewport bottom and is used as an inclusive index —
and the background pass rasterizes page 1 as well (its bytes are `some`, not
the claimed placeholder `none`). -/
theorem scenarioA_counterexample :
    Preview.compute_pages_to_render
        { Preview.new with viewport_h := 100 } twoPageDocument ≠ (0, 0) ∧
    Preview.compute_pages_to_render
        { Preview.new with viewport_h := 100 } twoPageDocument = (0, 1) ∧
    (fetch okEncoder
        (Preview.compute_pages_to_render
          { Preview.new with viewport_h := 100 } twoPageDocument)
        1 twoPageDocument).map PagePreview.bytes = [some [], some []] := by
  have hc : Preview.compute_pages_to_render
      { Preview.new with viewport_h := 100 } twoPageDocument = (0, 1) := by
    norm_num [Preview.compute_pages_to_render, Preview.pages_positions,
      pagesPositionsFrom, Preview.new, twoPageDocument, SPACING_BETWEEN_PAGES,
      List.takeWhile]
  refine ⟨by simp [hc], hc, ?_⟩
  rw [hc]
  decide

/-- Claim C1 (amended): for a 2-page document with zoom 1.0, scroll offset 0
and `0 ≤ viewport_h < page 0's display height`: when the viewport height is
at most the inter-page spacing (15pt) the computed range is `(0, 0)`, only
page 0 is rasterized and page 1 is cached as a placeholder (`bytes = none`)
carrying its width and height; when the viewport height exceeds the spacing
the computed range is `(0, 1)` — the last component counts pages beginning
above the viewport bottom and is used as an inclusive index — and the
background pass rasterizes both pages. -/
theorem scenarioA_amended (enc : Page → ℚ → Option Bytes)
    (w₀ w₁ h₀ h₁ vh : ℚ) (hvh : 0 ≤ vh) (hsmall : vh < h₀) :
    (vh ≤ SPACING_BETWEEN_PAGES →
      Preview.compute_pages_to_render { Preview.new with viewport_h := vh }
          [⟨w₀, h₀⟩, ⟨w₁, h₁⟩] = (0, 0) ∧
      fetch enc (0, 0) 1 [⟨w₀, h₀⟩, ⟨w₁, h₁⟩] =
        [PagePreview.fetch enc ⟨w₀, h₀⟩ 1, PagePreview.empty ⟨w₁, h₁⟩]) ∧
    (SPACING_BETWEEN_PAGES < vh →
      Preview.compute_pages_to_render { Preview.new with viewport_h := vh }
          [⟨w₀, h₀⟩, ⟨w₁, h₁⟩] = (0, 1) ∧
      fetch enc (0, 1) 1 [⟨w₀, h₀⟩, ⟨w₁, h₁⟩] =
        [PagePreview.fetch enc ⟨w₀, h₀⟩ 1,
         PagePreview.fetch enc ⟨w₁, h₁⟩ 1]) := by
  have e₀ : ¬ ((15 : ℚ) + h₀ < 0) := by intro hcon; linarith
  constructor
  · intro hle
    have b₀ : ¬ ((15 : ℚ) < vh) := by
      intro hcon
      rw [show SPACING_BETWEEN_PAGES = (15 : ℚ) from rfl] at hle
      linarith
    constructor
    · simp [Preview.compute_pages_to_render, Preview.pages_positions,
        pagesPositionsFrom, Preview.new, SPACING_BETWEEN_PAGES,
        List.takeWhile_cons, e₀, b₀]
    · rfl
  · intro hlt
    have b₀ : (15 : ℚ) < vh := by
      rw [show SPACING_BETWEEN_PAGES = (15 : ℚ) from rfl] at hlt
      exact hlt
    have b₁ : ¬ ((15 : ℚ) + h₀ + 15 < vh) := by intro hcon; linarith
    constructor
    · simp [Preview.compute_pages_to_render, Preview.pages_positions,
        pagesPositionsFrom, Preview.new, SPACING_BETWEEN_PAGES,
        List.takeWhile_cons, e₀, b₀, b₁]
    · rfl

/-- Claim C1 witness (for the amended claim): two 800pt-tall pages,
viewport height 100.  The range is `(0, 1)` and both pages are rasterized. -/
theorem scenarioA_amended_witness :
    Preview.compute_pages_to_render { Preview.new with viewport_h := (100 : ℚ) }
        [⟨600, 800⟩, ⟨600, 800⟩] = (0, 1) ∧
    fetch okEncoder (0, 1) 1 [⟨600, 800⟩, ⟨600, 800⟩] =
      [PagePreview.fetch okEncoder ⟨600, 800⟩ 1,
       PagePreview.fetch okEncoder ⟨600, 800⟩ 1] :=
  (scenarioA_amended okEncoder 600 600 800 800 100 (by norm_num)
    (by norm_num)).2 (by norm_num [SPACING_BETWEEN_PAGES])

/-- Claim C9: caching a project into a recent-projects list of at most 5
entries with pairwise distinct roots puts the new project first, keeps the
roots pairwise distinct and keeps the length at most 5. -/
theorem cache_project_spec (project : ProjectCache)
    (projects : List ProjectCache)
    (hlen : projects.length ≤ MAX_CACHED_PROJECTS)
    (hdist : projects.Pairwise (fun a b => a.root_path ≠ b.root_path)) :
    (cache_project project projects).head? = some project ∧
    (cache_project project projects).Pairwise
      (fun a b => a.root_path ≠ b.root_path) ∧
    (cache_project project projects).length ≤ MAX_CACHED_PROJECTS := by
  refine ⟨rfl, ?_, ?_⟩
  · simp only [cache_project]
    refine List.Pairwise.cons ?_ ?_
    · intro b hb
      exact (of_decide_eq_true (List.mem_filter.mp hb).2).symm
    · refine List.Pairwise.filter _ ?_
      split
      · exact List.Pairwise.sublist (List.dropLast_sublist projects) hdist
      · exact hdist
  · simp only [cache_project, List.length_cons]
    by_cases hc : projects.length > MAX_CACHED_PROJECTS - 1
    · rw [if_pos hc]
      have h1 := List.length_filter_le
        (fun p => p.root_path ≠ project.root_path) projects.dropLast
      rw [List.length_dropLast] at h1
      simp only [MAX_CACHED_PROJECTS] at *
      omega
    · rw [if_neg hc]
      have h1 := List.length_filter_le
        (fun p => p.root_path ≠ project.root_path) projects
      simp only [MAX_CACHED_PROJECTS] at *
      omega

/-- Claim C9 witness: caching a fresh project on a 2-entry list. -/
theorem cache_project_spec_witness :
    (cache_project ⟨["c"], none⟩
        [⟨["a"], none⟩, ⟨["b"], some ["b", "main.typ"]⟩]).head?
      = some ⟨["c"], none⟩ ∧
    (cache_project ⟨["c"], none⟩
        [⟨["a"], none⟩, ⟨["b"], some ["b", "main.typ"]⟩]).Pairwise
      (fun a b => a.root_path ≠ b.root_path) ∧
    (cache_project ⟨["c"], none⟩
        [⟨["a"], none⟩, ⟨["b"], some ["b", "main.typ"]⟩]).length
      ≤ MAX_CACHED_PROJECTS :=
  cache_project_spec ⟨["c"], none⟩
    [⟨["a"], none⟩, ⟨["b"], some ["b", "main.typ"]⟩] (by decide) (by decide)

end Tide
